import Mathlib

/-!
Verification of the halfremembered-launcher core against its specification.

The development shallowly embeds the Rust sources of the repository:
  src/protocol/src/frame.rs        (frame codec and incremental frame buffer)
  src/protocol/src/lib.rs          (framed message families, MessageBuffer)
  src/launcher/src/client_registry.rs
  src/launcher/src/ssh_server.rs   (rsync data-channel handler, session drop)
  src/launcher/src/client_daemon.rs (agent rsync handler)
  src/launcher/src/file_watcher.rs (watch configuration filter)

Bytes are modelled as natural numbers below 256, byte strings as lists.
Machine integer overflow is modelled explicitly with mod arithmetic where
the Rust code performs a narrowing cast.  Functions from external crates
(fast_rsync, sha2, globset, bincode) are universally quantified parameters
of the embedded functions, since only their call sites live in this
repository.
-/

namespace HalfRemembered

/-- Maximum frame size, 100 MiB (src/protocol/src/frame.rs). -/
def MAX_FRAME_SIZE : Nat := 100 * 1024 * 1024

/-- Frame header size in bytes (4 length + 2 type). -/
def FRAME_HEADER_SIZE : Nat := 6

/-- Modulus of a 32-bit unsigned integer. -/
def U32_MOD : Nat := 4294967296

/-- Big-endian bytes of a 16-bit value, as u16::to_be_bytes. -/
def be16 (n : Nat) : List Nat := [n / 256 % 256, n % 256]

/-- Big-endian bytes of a 32-bit value, as u32::to_be_bytes. -/
def be32 (n : Nat) : List Nat :=
  [n / 16777216 % 256, n / 65536 % 256, n / 256 % 256, n % 256]

/-- u16::from_be_bytes on a two-byte list (0 on malformed input). -/
def decode16L : List Nat → Nat
  | [b0, b1] => b0 * 256 + b1
  | _ => 0

/-- u32::from_be_bytes on a four-byte list (0 on malformed input). -/
def decode32L : List Nat → Nat
  | [b0, b1, b2, b3] => b0 * 16777216 + b1 * 65536 + b2 * 256 + b3
  | _ => 0

/-- Frame: 16-bit message type plus payload (src/protocol/src/frame.rs). -/
structure Frame where
  message_type : Nat
  payload : List Nat
deriving DecidableEq, Repr

/-- Wellformedness of a frame value: the type fits in u16 and the payload
consists of bytes.  These facts hold by typing in the Rust source. -/
def Frame.wfBytes (f : Frame) : Prop :=
  f.message_type < 65536 ∧ ∀ b ∈ f.payload, b < 256

instance (f : Frame) : Decidable f.wfBytes := by
  unfold Frame.wfBytes
  exact instDecidableAnd

/-- Frame::write.  The Rust code computes `length = (2 + payload.len()) as u32`,
a narrowing cast modelled by mod 2^32, then refuses lengths above
MAX_FRAME_SIZE and otherwise emits length, type and payload. -/
def Frame.write (f : Frame) : Except String (List Nat) :=
  let length := (2 + f.payload.length) % U32_MOD
  if length > MAX_FRAME_SIZE then
    Except.error ("Frame too large")
  else
    Except.ok (be32 length ++ be16 f.message_type ++ f.payload)

/-- read_exact: take n bytes from the front of the stream or fail. -/
def readExact (n : Nat) (input : List Nat) : Except String (List Nat × List Nat) :=
  if input.length < n then Except.error ("read_exact failed")
  else Except.ok (input.take n, input.drop n)

/-- Frame::read from a byte stream: 4-byte length, bounds checks, 2-byte
type, payload of length - 2 bytes.  Returns the frame and the rest of the
stream. -/
def Frame.read (input : List Nat) : Except String (Frame × List Nat) :=
  match readExact 4 input with
  | Except.error e => Except.error e
  | Except.ok (lenB, r1) =>
    let length := decode32L lenB
    if length > MAX_FRAME_SIZE then
      Except.error ("Frame too large")
    else if length < 2 then
      Except.error ("Frame too small")
    else
      match readExact 2 r1 with
      | Except.error e => Except.error e
      | Except.ok (tB, r2) =>
        match readExact (length - 2) r2 with
        | Except.error e => Except.error e
        | Except.ok (payload, r3) => Except.ok (⟨decode16L tB, payload⟩, r3)

/-- The wire encoding of a frame: what Frame::write emits when it succeeds. -/
def Frame.encode (f : Frame) : List Nat :=
  be32 (2 + f.payload.length) ++ be16 f.message_type ++ f.payload

/-- A frame the codec accepts: byte-wellformed and within the size cap. -/
def Frame.valid (f : Frame) : Prop :=
  f.payload.length ≤ MAX_FRAME_SIZE - 2 ∧ f.wfBytes

instance (f : Frame) : Decidable f.valid := by
  unfold Frame.valid
  exact instDecidableAnd

/-- FrameBuffer::try_parse on the buffered bytes.  Returns none when no
complete frame is buffered, an error on an invalid length field, and
otherwise the first frame together with the remaining buffer
(src/protocol/src/frame.rs, lines 137-176). -/
def FrameBuffer.tryParse (buf : List Nat) : Except String (Option (Frame × List Nat)) :=
  if buf.length < FRAME_HEADER_SIZE then Except.ok none
  else if decode32L (buf.take 4) > MAX_FRAME_SIZE then Except.error ("Frame too large")
  else if decode32L (buf.take 4) < 2 then Except.error ("Frame too small")
  else if buf.length < 4 + decode32L (buf.take 4) then Except.ok none
  else
    Except.ok (some (⟨decode16L ((buf.drop 4).take 2),
      (buf.drop 6).take (decode32L (buf.take 4) - 2)⟩,
      buf.drop (4 + decode32L (buf.take 4))))

-- Arithmetic round-trips for the big-endian helpers.

theorem decode32L_be32 (n : Nat) (h : n < U32_MOD) : decode32L (be32 n) = n := by
  simp only [decode32L, be32]
  unfold U32_MOD at h
  omega

theorem decode16L_be16 (n : Nat) (h : n < 65536) : decode16L (be16 n) = n := by
  simp only [decode16L, be16]
  omega

theorem encode_length (f : Frame) : f.encode.length = 6 + f.payload.length := by
  unfold Frame.encode be32 be16
  simp
  omega

theorem write_eq_encode (f : Frame) (h : f.payload.length ≤ MAX_FRAME_SIZE - 2) :
    f.write = Except.ok f.encode := by
  unfold Frame.write Frame.encode
  have hm : (2 + f.payload.length) % U32_MOD = 2 + f.payload.length := by
    apply Nat.mod_eq_of_lt
    unfold MAX_FRAME_SIZE at h
    unfold U32_MOD
    omega
  rw [hm]
  have : ¬ (2 + f.payload.length > MAX_FRAME_SIZE) := by
    unfold MAX_FRAME_SIZE at *
    omega
  simp [this]

theorem readExact_append (xs ys : List Nat) :
    readExact xs.length (xs ++ ys) = Except.ok (xs, ys) := by
  unfold readExact
  have h1 : ¬ ((xs ++ ys).length < xs.length) := by
    simp [List.length_append]
  simp [h1]

theorem read_encode (f : Frame) (rest : List Nat) (hval : f.valid) :
    Frame.read (f.encode ++ rest) = Except.ok (f, rest) := by
  obtain ⟨mt, p⟩ := f
  obtain ⟨hsize, hmt, hbytes⟩ := hval
  simp only [Frame.valid, Frame.wfBytes] at *
  have hlen2 : 2 + p.length < U32_MOD := by
    unfold MAX_FRAME_SIZE at hsize
    unfold U32_MOD
    omega
  unfold Frame.read Frame.encode
  have e1 : (be32 (2 + p.length) ++ be16 mt ++ p) ++ rest
      = be32 (2 + p.length) ++ (be16 mt ++ (p ++ rest)) := by
    simp [List.append_assoc]
  rw [e1]
  have h4 : (be32 (2 + p.length)).length = 4 := rfl
  rw [← h4, readExact_append]
  simp only [decode32L_be32 _ hlen2]
  have hgt : ¬ (2 + p.length > MAX_FRAME_SIZE) := by
    unfold MAX_FRAME_SIZE at *
    omega
  have hlt : ¬ (2 + p.length < 2) := by omega
  simp only [hgt, if_false, hlt]
  have h3 : 2 + p.length - 2 = p.length := by omega
  rw [h3]
  have h2 : (be16 mt).length = 2 := rfl
  rw [← h2, readExact_append]
  simp only []
  rw [readExact_append]
  simp [decode16L_be16 _ hmt]

/-- Claim C6 as frozen is false at this input: a payload of 2^32 - 2 bytes
exceeds the 100 MiB cap by far, yet Frame::write succeeds, because the Rust
code narrows the length to u32 before the size check and 2 + (2^32 - 2)
wraps to 0.  The emitted header carries the wrapped length 0. -/
theorem write_unchecked (t : Nat) (p : List Nat)
    (h : ¬ ((2 + p.length) % U32_MOD > MAX_FRAME_SIZE)) :
    Frame.write ⟨t, p⟩ = Except.ok (be32 ((2 + p.length) % U32_MOD) ++ be16 t ++ p) := by
  unfold Frame.write
  exact if_neg h

theorem claim_C6_counterexample :
    MAX_FRAME_SIZE - 2 < (List.replicate (U32_MOD - 2) 0).length ∧
    Frame.write ⟨1, List.replicate (U32_MOD - 2) 0⟩ =
      Except.ok (be32 0 ++ be16 1 ++ List.replicate (U32_MOD - 2) 0) := by
  have hlen : (List.replicate (U32_MOD - 2) (0 : Nat)).length = U32_MOD - 2 :=
    List.length_replicate _ _
  constructor
  · rw [hlen]
    norm_num [MAX_FRAME_SIZE, U32_MOD]
  · have h : ¬ ((2 + (List.replicate (U32_MOD - 2) (0 : Nat)).length) % U32_MOD
        > MAX_FRAME_SIZE) := by
      rw [hlen]
      norm_num [MAX_FRAME_SIZE, U32_MOD]
    rw [write_unchecked 1 _ h, hlen]
    norm_num [U32_MOD]

/-- Claim C6, amended: for payloads of at most 100 MiB - 2 bytes the write
and read of a frame round-trip; write fails for every payload longer than
100 MiB - 2 bytes as long as 2 + length does not overflow u32 (length at
most 2^32 - 3).  Beyond that the narrowing cast can let write succeed, as
the counterexample shows. -/
theorem claim_C6_amended (t : Nat) (p : List Nat) (rest : List Nat)
    (ht : t < 65536) (hbytes : ∀ b ∈ p, b < 256) :
    (p.length ≤ MAX_FRAME_SIZE - 2 →
      Frame.write ⟨t, p⟩ = Except.ok (Frame.encode ⟨t, p⟩) ∧
      Frame.read (Frame.encode ⟨t, p⟩ ++ rest) = Except.ok (⟨t, p⟩, rest)) ∧
    (MAX_FRAME_SIZE - 2 < p.length → p.length ≤ U32_MOD - 3 →
      Frame.write ⟨t, p⟩ = Except.error ("Frame too large")) := by
  constructor
  · intro hsize
    refine ⟨write_eq_encode _ hsize, read_encode _ _ ?_⟩
    exact ⟨hsize, ht, hbytes⟩
  · intro hbig hfit
    unfold Frame.write
    have hm : (2 + p.length) % U32_MOD = 2 + p.length := by
      apply Nat.mod_eq_of_lt
      unfold U32_MOD at *
      omega
    have hgt : (2 + p.length) % U32_MOD > MAX_FRAME_SIZE := by
      rw [hm]
      unfold MAX_FRAME_SIZE at *
      omega
    simp [hgt]

/-- Witness for claim_C6_amended at a concrete frame. -/
theorem claim_C6_amended_witness :
    (3 : Nat) < 65536 ∧ (∀ b ∈ [10, 20, 30], b < 256) ∧
    (Frame.write ⟨3, [10, 20, 30]⟩ = Except.ok (Frame.encode ⟨3, [10, 20, 30]⟩) ∧
     Frame.read (Frame.encode ⟨3, [10, 20, 30]⟩ ++ [9]) =
       Except.ok (⟨3, [10, 20, 30]⟩, [9])) :=
  ⟨by decide, by decide,
    (claim_C6_amended 3 [10, 20, 30] [9] (by decide) (by decide)).1 (by decide)⟩

-- The incremental frame buffer (claim C7).

/-- Fuel-indexed repeated try_parse: drain every complete frame from the
front of the buffer.  The fuel only serves termination; the buffer length
is always enough fuel, since each parsed frame consumes at least 6 bytes. -/
def drainF : Nat → List Nat → List Frame × List Nat
  | 0, buf => ([], buf)
  | fuel + 1, buf =>
    match FrameBuffer.tryParse buf with
    | Except.ok (some (f, rest)) =>
      let r := drainF fuel rest
      (f :: r.1, r.2)
    | _ => ([], buf)

/-- Repeatedly call try_parse on the buffer, collecting the parsed frames,
until it reports that more data is needed. -/
def drain (buf : List Nat) : List Frame × List Nat :=
  drainF buf.length buf

/-- One FrameBuffer::append followed by draining all complete frames. -/
def feed (st : List Frame × List Nat) (piece : List Nat) : List Frame × List Nat :=
  let r := drain (st.2 ++ piece)
  (st.1 ++ r.1, r.2)

/-- Stream a sequence of byte runs through a fresh frame buffer, collecting
every frame that try_parse yields along the way. -/
def feedPieces (pieces : List (List Nat)) : List Frame × List Nat :=
  pieces.foldl feed ([], [])

theorem tryParse_nil : FrameBuffer.tryParse [] = Except.ok none := rfl

theorem tryParse_some_bound {buf : List Nat} {f : Frame} {rest : List Nat}
    (h : FrameBuffer.tryParse buf = Except.ok (some (f, rest))) :
    rest.length + 6 ≤ buf.length := by
  unfold FrameBuffer.tryParse at h
  split at h
  · exact absurd h (by simp)
  · split at h
    · exact absurd h (by simp)
    · split at h
      · exact absurd h (by simp)
      · split at h
        · exact absurd h (by simp)
        · simp only [Except.ok.injEq, Option.some.injEq, Prod.mk.injEq] at h
          obtain ⟨_, hrest⟩ := h
          subst hrest
          rename_i hlen _ hsmall hcomplete
          simp only [FRAME_HEADER_SIZE, not_lt] at hlen hcomplete
          simp only [List.length_drop]
          omega

theorem tryParse_encode_append (f : Frame) (rest : List Nat) (hval : f.valid) :
    FrameBuffer.tryParse (f.encode ++ rest) = Except.ok (some (f, rest)) := by
  obtain ⟨mt, p⟩ := f
  obtain ⟨hsize, hmt, hbytes⟩ := hval
  simp only at hsize
  have hU : 2 + p.length < U32_MOD := by
    unfold MAX_FRAME_SIZE at hsize
    unfold U32_MOD
    omega
  have h1 : Frame.encode ⟨mt, p⟩ ++ rest
      = be32 (2 + p.length) ++ (be16 mt ++ (p ++ rest)) := by
    simp [Frame.encode, List.append_assoc]
  rw [h1]
  have hlen : (be32 (2 + p.length) ++ (be16 mt ++ (p ++ rest))).length
      = 6 + p.length + rest.length := by
    simp [be32, be16]
    omega
  have hb32 : (be32 (2 + p.length)).length = 4 := rfl
  have htake4 : (be32 (2 + p.length) ++ (be16 mt ++ (p ++ rest))).take 4
      = be32 (2 + p.length) := by
    rw [← hb32, List.take_left]
  unfold FrameBuffer.tryParse
  rw [htake4, decode32L_be32 _ hU, hlen]
  have c1 : ¬ (6 + p.length + rest.length < FRAME_HEADER_SIZE) := by
    unfold FRAME_HEADER_SIZE
    omega
  have c2 : ¬ (2 + p.length > MAX_FRAME_SIZE) := by
    unfold MAX_FRAME_SIZE at *
    omega
  have c3 : ¬ (2 + p.length < 2) := by omega
  have c4 : ¬ (6 + p.length + rest.length < 4 + (2 + p.length)) := by omega
  rw [if_neg c1, if_neg c2, if_neg c3, if_neg c4]
  have hdrop4 : (be32 (2 + p.length) ++ (be16 mt ++ (p ++ rest))).drop 4
      = be16 mt ++ (p ++ rest) := by
    rw [← hb32, List.drop_left]
  have hb16 : (be16 mt).length = 2 := rfl
  have htake2 : (be16 mt ++ (p ++ rest)).take 2 = be16 mt := by
    rw [← hb16, List.take_left]
  have h2 : be32 (2 + p.length) ++ (be16 mt ++ (p ++ rest))
      = (be32 (2 + p.length) ++ be16 mt) ++ (p ++ rest) := by
    simp [List.append_assoc]
  have hb6 : (be32 (2 + p.length) ++ be16 mt).length = 6 := rfl
  have hdrop6 : (be32 (2 + p.length) ++ (be16 mt ++ (p ++ rest))).drop 6
      = p ++ rest := by
    rw [h2, ← hb6, List.drop_left]
  have hsub : 2 + p.length - 2 = p.length := by omega
  have htakep : (p ++ rest).take p.length = p := List.take_left p rest
  have h3 : be32 (2 + p.length) ++ (be16 mt ++ (p ++ rest))
      = ((be32 (2 + p.length) ++ be16 mt) ++ p) ++ rest := by
    simp [List.append_assoc]
  have hb6p : ((be32 (2 + p.length) ++ be16 mt) ++ p).length = 6 + p.length := by
    simp [be32, be16]
    omega
  have hdropAll : (be32 (2 + p.length) ++ (be16 mt ++ (p ++ rest))).drop
      (4 + (2 + p.length)) = rest := by
    have h4 : 4 + (2 + p.length) = 6 + p.length := by omega
    rw [h4, h3, ← hb6p, List.drop_left]
  rw [hdrop4, htake2, hdrop6, hsub, htakep, hdropAll,
    decode16L_be16 _ hmt]

/-- Any strict byte prefix of the encoding of a valid frame makes try_parse
report that more data is needed, so the buffer never yields a partial
frame and tolerates split headers. -/
theorem tryParse_take_encode (f : Frame) (n : Nat) (hval : f.valid)
    (hn : n < f.encode.length) :
    FrameBuffer.tryParse (f.encode.take n) = Except.ok none := by
  obtain ⟨mt, p⟩ := f
  obtain ⟨hsize, hmt, hbytes⟩ := hval
  simp only at hsize
  have hU : 2 + p.length < U32_MOD := by
    unfold MAX_FRAME_SIZE at hsize
    unfold U32_MOD
    omega
  have hEncLen : (Frame.encode ⟨mt, p⟩).length = 6 + p.length := encode_length _
  rw [hEncLen] at hn
  have hTakeLen : ((Frame.encode ⟨mt, p⟩).take n).length = n := by
    rw [List.length_take, hEncLen]
    omega
  by_cases hsmall : n < FRAME_HEADER_SIZE
  · unfold FrameBuffer.tryParse
    rw [hTakeLen, if_pos hsmall]
  · have h6 : 6 ≤ n := by
      unfold FRAME_HEADER_SIZE at hsmall
      omega
    have htake4 : ((Frame.encode ⟨mt, p⟩).take n).take 4 = be32 (2 + p.length) := by
      rw [List.take_take]
      have hmin : min 4 n = 4 := by omega
      rw [hmin]
      have hb32 : (be32 (2 + p.length)).length = 4 := rfl
      have h1 : Frame.encode ⟨mt, p⟩
          = be32 (2 + p.length) ++ (be16 mt ++ p) := by
        simp [Frame.encode, List.append_assoc]
      rw [h1, ← hb32, List.take_left]
    unfold FrameBuffer.tryParse
    rw [hTakeLen, htake4, decode32L_be32 _ hU]
    have c1 : ¬ (n < FRAME_HEADER_SIZE) := hsmall
    have c2 : ¬ (2 + p.length > MAX_FRAME_SIZE) := by
      unfold MAX_FRAME_SIZE at *
      omega
    have c3 : ¬ (2 + p.length < 2) := by omega
    have c4 : n < 4 + (2 + p.length) := by omega
    rw [if_neg c1, if_neg c2, if_neg c3, if_pos c4]

theorem drainF_irrel (fuel : Nat) : ∀ (fuel2 : Nat) (buf : List Nat),
    buf.length ≤ fuel → buf.length ≤ fuel2 → drainF fuel buf = drainF fuel2 buf := by
  induction fuel with
  | zero =>
    intro fuel2 buf h1 h2
    have hb : buf = [] := List.eq_nil_of_length_eq_zero (Nat.le_zero.mp h1)
    subst hb
    cases fuel2 with
    | zero => rfl
    | succ m => simp [drainF, tryParse_nil]
  | succ n ih =>
    intro fuel2 buf h1 h2
    cases fuel2 with
    | zero =>
      have hb : buf = [] := List.eq_nil_of_length_eq_zero (Nat.le_zero.mp h2)
      subst hb
      simp [drainF, tryParse_nil]
    | succ m =>
      rcases htp : FrameBuffer.tryParse buf with e | o
      · simp [drainF, htp]
      · rcases o with _ | ⟨f, rest⟩
        · simp [drainF, htp]
        · have hb := tryParse_some_bound htp
          have hr1 : rest.length ≤ n := by omega
          have hr2 : rest.length ≤ m := by omega
          simp only [drainF, htp]
          rw [ih m rest hr1 hr2]

theorem drain_some {buf : List Nat} {f : Frame} {rest : List Nat}
    (h : FrameBuffer.tryParse buf = Except.ok (some (f, rest))) :
    drain buf = (f :: (drain rest).1, (drain rest).2) := by
  have hb := tryParse_some_bound h
  unfold drain
  have hlen : buf.length = (buf.length - 1) + 1 := by omega
  rw [hlen]
  simp only [drainF, h]
  have hr : rest.length ≤ buf.length - 1 := by omega
  rw [drainF_irrel (buf.length - 1) rest.length rest hr (Nat.le_refl _)]

theorem drain_stuck {buf : List Nat}
    (h : FrameBuffer.tryParse buf = Except.ok none) : drain buf = ([], buf) := by
  unfold drain
  rcases hl : buf.length with _ | n
  · rfl
  · simp [drainF, h]

theorem drain_nil : drain [] = ([], []) := rfl

/-- Draining an arbitrary cut point of a stream of encoded valid frames
yields exactly the frames fully contained in the consumed part, and leaves
a buffer that is a strict prefix of the remaining stream on which
try_parse asks for more data. -/
theorem drain_of_split (fs : List Frame) : ∀ (p t : List Nat),
    (∀ f ∈ fs, f.valid) → p ++ t = (fs.map Frame.encode).flatten →
    ∃ fs1 fs2 b, fs = fs1 ++ fs2 ∧ drain p = (fs1, b) ∧
      b ++ t = (fs2.map Frame.encode).flatten ∧
      FrameBuffer.tryParse b = Except.ok none := by
  induction fs with
  | nil =>
    intro p t _ hsplit
    simp only [List.map_nil, List.flatten_nil] at hsplit
    obtain ⟨hp, ht⟩ := List.append_eq_nil.mp hsplit
    subst hp
    subst ht
    exact ⟨[], [], [], rfl, drain_nil, rfl, tryParse_nil⟩
  | cons f fs ih =>
    intro p t hval hsplit
    have hvf : f.valid := hval f (List.mem_cons_self f fs)
    have hval2 : ∀ g ∈ fs, g.valid := fun g hg => hval g (List.mem_cons_of_mem f hg)
    simp only [List.map_cons, List.flatten_cons] at hsplit
    rw [List.append_eq_append_iff] at hsplit
    rcases hsplit with ⟨w, hw1, hw2⟩ | ⟨w, hw1, hw2⟩
    · -- p is a (possibly improper) byte prefix of encode f
      rcases w with _ | ⟨x, xs⟩
      · -- p = encode f exactly
        have hp : p = f.encode := by
          rw [List.append_nil] at hw1
          exact hw1.symm
        have hparse : FrameBuffer.tryParse p = Except.ok (some (f, [])) := by
          rw [hp, ← List.append_nil f.encode]
          have := tryParse_encode_append f [] hvf
          simpa using this
        have hdrain : drain p = ([f], []) := by
          rw [drain_some hparse, drain_nil]
        refine ⟨[f], fs, [], rfl, hdrain, ?_, tryParse_nil⟩
        simp only [List.nil_append, hw2]
      · -- p is a strict prefix of encode f
        have hplen : p.length < f.encode.length := by
          have := congrArg List.length hw1
          simp at this
          omega
        have hp : f.encode.take p.length = p := by
          rw [hw1]
          exact List.take_left p (x :: xs)
        have hparse : FrameBuffer.tryParse p = Except.ok none := by
          rw [← hp]
          exact tryParse_take_encode f p.length hvf hplen
        refine ⟨[], f :: fs, p, rfl, drain_stuck hparse, ?_, hparse⟩
        simp only [List.map_cons, List.flatten_cons]
        rw [hw2, ← List.append_assoc, ← hw1]
    · -- p extends past encode f, so the first frame is fully buffered
      obtain ⟨fs1, fs2, b, hfs, hdw, hbt, hb⟩ := ih w t hval2 hw2.symm
      have hdrainp : drain p = (f :: fs1, b) := by
        rw [hw1, drain_some (tryParse_encode_append f w hvf), hdw]
      refine ⟨f :: fs1, fs2, b, ?_, hdrainp, hbt, hb⟩
      rw [hfs]
      rfl

theorem feed_foldl (pieces : List (List Nat)) : ∀ (out : List Frame) (b : List Nat)
    (fs2 : List Frame), (∀ f ∈ fs2, f.valid) →
    FrameBuffer.tryParse b = Except.ok none →
    b ++ pieces.flatten = (fs2.map Frame.encode).flatten →
    pieces.foldl feed (out, b) = (out ++ fs2, []) := by
  induction pieces with
  | nil =>
    intro out b fs2 hval hb hjoin
    simp only [List.flatten_nil, List.append_nil] at hjoin
    cases fs2 with
    | nil =>
      simp only [List.map_nil, List.flatten_nil] at hjoin
      subst hjoin
      simp [List.foldl]
    | cons g gs =>
      exfalso
      simp only [List.map_cons, List.flatten_cons] at hjoin
      have hparse := tryParse_encode_append g ((gs.map Frame.encode).flatten)
        (hval g (List.mem_cons_self g gs))
      rw [hjoin, hparse] at hb
      simp at hb
  | cons piece rest ih =>
    intro out b fs2 hval hb hjoin
    simp only [List.foldl_cons]
    simp only [List.flatten_cons] at hjoin
    rw [← List.append_assoc] at hjoin
    obtain ⟨fsA, fsB, b2, hfsplit, hdrain, hbt, hb2⟩ :=
      drain_of_split fs2 (b ++ piece) rest.flatten hval hjoin
    have hfeed : feed (out, b) piece = (out ++ fsA, b2) := by
      show (out ++ (drain (b ++ piece)).1, (drain (b ++ piece)).2) = (out ++ fsA, b2)
      rw [hdrain]
    rw [hfeed]
    have hvalB : ∀ g ∈ fsB, g.valid := by
      intro g hg
      refine hval g ?_
      rw [hfsplit]
      exact List.mem_append_right fsA hg
    rw [ih (out ++ fsA) b2 fsB hvalB hb2 hbt, hfsplit, List.append_assoc]

/-- Claim C7: streaming any byte-for-byte split of the concatenated wire
encodings of valid frames f1, ..., fn through FrameBuffer::append and
draining with try_parse yields exactly f1, ..., fn in order with an empty
final buffer; and try_parse returns None, never a partial frame, on every
strict prefix of a frame encoding, including 1..=5 byte header chips. -/
theorem claim_C7 (fs : List Frame) (pieces : List (List Nat))
    (hval : ∀ f ∈ fs, f.valid)
    (hjoin : pieces.flatten = (fs.map Frame.encode).flatten) :
    feedPieces pieces = (fs, []) ∧
    ∀ (f : Frame) (n : Nat), f.valid → n < f.encode.length →
      FrameBuffer.tryParse (f.encode.take n) = Except.ok none := by
  constructor
  · unfold feedPieces
    have h := feed_foldl pieces [] [] fs hval tryParse_nil (by simpa using hjoin)
    simpa using h
  · intro f n hv hn
    exact tryParse_take_encode f n hv hn

/-- Witness for claim_C7 on a concrete two-frame stream split at awkward
byte boundaries (a 3-byte header chip, a piece straddling both frames). -/
theorem claim_C7_witness :
    feedPieces [[0, 0, 0], [4, 0, 1, 2, 3, 0], [0, 0, 2, 0, 2]]
      = ([⟨1, [2, 3]⟩, ⟨2, []⟩], []) ∧
    ∀ (f : Frame) (n : Nat), f.valid → n < f.encode.length →
      FrameBuffer.tryParse (f.encode.take n) = Except.ok none :=
  claim_C7 [⟨1, [2, 3]⟩, ⟨2, []⟩] [[0, 0, 0], [4, 0, 1, 2, 3, 0], [0, 0, 2, 0, 2]]
    (by decide) (by decide)

-- The framed message families and MessageBuffer (src/protocol/src/lib.rs).

/-- Maximum framed message size, 10 MiB. -/
def MAX_MESSAGE_SIZE : Nat := 10 * 1024 * 1024

/-- Family discriminator of agent-to-hub ClientMessage. -/
def MESSAGE_TYPE_CLIENT : Nat := 1

/-- Family discriminator of hub-to-agent ServerMessage. -/
def MESSAGE_TYPE_SERVER : Nat := 2

/-- Family discriminator of operator LocalCommand. -/
def MESSAGE_TYPE_LOCAL_COMMAND : Nat := 3

/-- Family discriminator of operator LocalResponse. -/
def MESSAGE_TYPE_LOCAL_RESPONSE : Nat := 4

/-- The shared shape of the four MessageBuffer try_parse methods
(try_parse_client_message, try_parse_server_message, try_parse_local_command,
try_parse_local_response).  Each method checks, in source order: at least 5
buffered bytes, the 4-byte big-endian length against the 10 MiB cap, that
the whole message is buffered, and only then the family discriminator byte
at index 4; a mismatching discriminator yields Ok(None) without touching
the buffer.  The decoder parameter stands for the bincode from_bytes of the
family type; the four methods differ only in decoder and discriminator. -/
def MessageBuffer.tryParseFamily {α : Type} (decode : List Nat → Except String α)
    (disc : Nat) (buf : List Nat) : Except String (Option α × List Nat) :=
  if buf.length < 5 then Except.ok (none, buf)
  else if decode32L (buf.take 4) > MAX_MESSAGE_SIZE then
    Except.error ("Message too large")
  else if buf.length < 4 + decode32L (buf.take 4) then Except.ok (none, buf)
  else if buf.getD 4 0 ≠ disc then Except.ok (none, buf)
  else
    match decode ((buf.drop 5).take (decode32L (buf.take 4) - 1)) with
    | Except.error e => Except.error e
    | Except.ok msg => Except.ok (some msg, buf.drop (4 + decode32L (buf.take 4)))

/-- The bytes write_framed emits for a message family: 4-byte big-endian
length covering discriminator plus body, the discriminator byte, the
bincode body. -/
def writeFramedBytes (disc : Nat) (body : List Nat) : List Nat :=
  be32 (1 + body.length) ++ disc :: body

/-- Claim C9: when the buffer starts with a complete framed message of
family X, the try_parse method of any other family Y returns Ok(None),
not an error, and leaves the buffer unchanged, so family X can still parse
its message afterwards. -/
theorem claim_C9 {α β : Type} (decodeX : List Nat → Except String α)
    (decodeY : List Nat → Except String β) (X Y : Nat) (body rest : List Nat)
    (msg : α) (hXY : Y ≠ X) (hsize : 1 + body.length ≤ MAX_MESSAGE_SIZE)
    (hdec : decodeX body = Except.ok msg) :
    MessageBuffer.tryParseFamily decodeY Y (writeFramedBytes X body ++ rest)
      = Except.ok (none, writeFramedBytes X body ++ rest) ∧
    MessageBuffer.tryParseFamily decodeX X (writeFramedBytes X body ++ rest)
      = Except.ok (some msg, rest) := by
  have hU : 1 + body.length < U32_MOD := by
    unfold MAX_MESSAGE_SIZE at hsize
    unfold U32_MOD
    omega
  have h1 : writeFramedBytes X body ++ rest
      = be32 (1 + body.length) ++ (X :: (body ++ rest)) := by
    simp [writeFramedBytes, List.append_assoc]
  have hb32 : (be32 (1 + body.length)).length = 4 := rfl
  have hlen : (be32 (1 + body.length) ++ (X :: (body ++ rest))).length
      = 5 + body.length + rest.length := by
    simp [be32]
    omega
  have htake4 : (be32 (1 + body.length) ++ (X :: (body ++ rest))).take 4
      = be32 (1 + body.length) := by
    rw [← hb32, List.take_left]
  have hget : (be32 (1 + body.length) ++ (X :: (body ++ rest))).getD 4 0 = X := by
    simp [be32]
  have c1 : ¬ (5 + body.length + rest.length < 5) := by omega
  have c2 : ¬ (1 + body.length > MAX_MESSAGE_SIZE) := by omega
  have c3 : ¬ (5 + body.length + rest.length < 4 + (1 + body.length)) := by omega
  have hbody : ((be32 (1 + body.length) ++ (X :: (body ++ rest))).drop 5).take
      (1 + body.length - 1) = body := by
    have hd : (be32 (1 + body.length) ++ (X :: (body ++ rest))).drop 5
        = body ++ rest := by
      simp [be32]
    rw [hd]
    have hsub : 1 + body.length - 1 = body.length := by omega
    rw [hsub]
    exact List.take_left body rest
  have hrest : (be32 (1 + body.length) ++ (X :: (body ++ rest))).drop
      (4 + (1 + body.length)) = rest := by
    have h2 : be32 (1 + body.length) ++ (X :: (body ++ rest))
        = (be32 (1 + body.length) ++ (X :: body)) ++ rest := by
      simp [List.append_assoc]
    have h3 : (be32 (1 + body.length) ++ (X :: body)).length
        = 4 + (1 + body.length) := by
      simp [be32]
      omega
    rw [h2, ← h3, List.drop_left]
  constructor
  · rw [h1]
    unfold MessageBuffer.tryParseFamily
    rw [htake4, decode32L_be32 _ hU, hlen, hget]
    rw [if_neg c1, if_neg c2, if_neg c3, if_pos (Ne.symm hXY)]
  · rw [h1]
    unfold MessageBuffer.tryParseFamily
    rw [htake4, decode32L_be32 _ hU, hlen, hget]
    rw [if_neg c1, if_neg c2, if_neg c3]
    have hXX : ¬ (X ≠ X) := by simp
    rw [if_neg hXX, hbody, hdec, hrest]

/-- Witness for claim_C9: a complete client-family message in the buffer,
probed first with the local-command parser, then parsed by its own family. -/
theorem claim_C9_witness :
    MessageBuffer.tryParseFamily (fun bs => Except.ok bs) MESSAGE_TYPE_LOCAL_COMMAND
      (writeFramedBytes MESSAGE_TYPE_CLIENT [7, 8] ++ [])
      = Except.ok (none, writeFramedBytes MESSAGE_TYPE_CLIENT [7, 8] ++ []) ∧
    MessageBuffer.tryParseFamily (fun bs => Except.ok bs) MESSAGE_TYPE_CLIENT
      (writeFramedBytes MESSAGE_TYPE_CLIENT [7, 8] ++ [])
      = Except.ok (some [7, 8], []) :=
  claim_C9 (fun bs => Except.ok bs) (fun bs => Except.ok bs)
    MESSAGE_TYPE_CLIENT MESSAGE_TYPE_LOCAL_COMMAND [7, 8] [] [7, 8]
    (by decide) (by decide) rfl

-- The agent registry (src/launcher/src/client_registry.rs).

/-- An agent record.  The Instant fields and the russh channel handle of the
Rust struct carry no registry logic and are omitted; hostname, session_id
and platform are the fields the registry operations inspect. -/
structure ConnectedClient where
  hostname : String
  session_id : String
  platform : String
deriving DecidableEq, Repr

/-- The registry HashMap from session_id to record, modeled as the
association list of its entries in iteration order.  Rust HashMap iteration
order is unspecified, so theorems treat the order as arbitrary; keys are
unique because every entry is inserted under its own session_id. -/
abbrev ClientRegistry := List (String × ConnectedClient)

/-- register: HashMap::insert keyed by the session_id of the client.
Insert replaces the value in place when the key is present and otherwise
adds an entry. -/
def ClientRegistry.register (reg : ClientRegistry) (c : ConnectedClient) :
    ClientRegistry :=
  if reg.any (fun kv => kv.1 == c.session_id) then
    reg.map (fun kv => if kv.1 == c.session_id then (kv.1, c) else kv)
  else
    reg ++ [(c.session_id, c)]

/-- unregister: HashMap::remove of the given key.  Since keys are unique,
removal equals keeping all entries with a different key. -/
def ClientRegistry.unregister (reg : ClientRegistry) (session_id : String) :
    ClientRegistry :=
  reg.filter (fun kv => ¬ (kv.1 == session_id))

/-- HashMap::values in iteration order. -/
def ClientRegistry.values (reg : ClientRegistry) : List ConnectedClient :=
  reg.map (fun kv => kv.2)

/-- list_clients returns the values of the map. -/
def ClientRegistry.list_clients (reg : ClientRegistry) : List ConnectedClient :=
  reg.values

/-- send_to_client: values().find(hostname matches), then the serialized
message is written to the control channel of the found record.  The model
returns the record whose channel receives the message; transport write
errors are outside the embedding. -/
def ClientRegistry.send_to_client (reg : ClientRegistry) (hostname : String) :
    Except String ConnectedClient :=
  match reg.values.find? (fun c => c.hostname == hostname) with
  | some c => Except.ok c
  | none => Except.error ("Client not found: " ++ hostname)

/-- The Drop impl of SshSession (src/launcher/src/ssh_server.rs, lines
959-969): when the connection drops and the session had registered a
hostname, it spawns registry.unregister(hostname), passing the hostname
where unregister takes a session_id. -/
def sshSessionDrop (reg : ClientRegistry) (hostname : Option String) :
    ClientRegistry :=
  match hostname with
  | some h => reg.unregister h
  | none => reg

/-- Claim C2 is false on the code.  An agent registered as hostname
host-a with hub-generated session id 3f2a (the two always differ: session
ids are fresh UUIDs) is still listed after its connection drops, because
Drop passes the hostname to unregister, which removes by session-id key.
Removing by the actual session id would have emptied the registry. -/
theorem claim_C2_code_divergence :
    (sshSessionDrop
        (ClientRegistry.register [] ⟨"host-a", "3f2a", "linux"⟩)
        (some "host-a")).list_clients
      = [⟨"host-a", "3f2a", "linux"⟩] ∧
    (ClientRegistry.register [] ⟨"host-a", "3f2a", "linux"⟩).unregister "3f2a"
      = [] := by
  constructor
  · rfl
  · rfl

/-- Claim C3 is false on the code at this registry state: two agents share
hostname build-box; the record registered first (session id sid-1) sits
first in iteration order, and send_to_client targets it, not the
most-recently-registered record (session id sid-2). -/
theorem claim_C3_counterexample :
    ClientRegistry.send_to_client
        (ClientRegistry.register
          (ClientRegistry.register [] ⟨"build-box", "sid-1", "linux"⟩)
          ⟨"build-box", "sid-2", "macos"⟩)
        "build-box"
      = Except.ok ⟨"build-box", "sid-1", "linux"⟩ ∧
    (⟨"build-box", "sid-1", "linux"⟩ : ConnectedClient)
      ≠ ⟨"build-box", "sid-2", "macos"⟩ := by
  constructor
  · rfl
  · decide

/-- Claim C3, amended: send_to_client fails with a Client not found error
exactly when no record has the hostname; otherwise it writes to the first
record with that hostname in the iteration order of the map, which is not
necessarily the most-recently-registered one. -/
theorem claim_C3_amended (reg : ClientRegistry) (hostname : String) :
    ((∀ c ∈ reg.values, c.hostname ≠ hostname) →
      reg.send_to_client hostname
        = Except.error ("Client not found: " ++ hostname)) ∧
    ((∃ c ∈ reg.values, c.hostname = hostname) →
      ∃ c, reg.send_to_client hostname = Except.ok c ∧
        reg.values.find? (fun d => d.hostname == hostname) = some c ∧
        c ∈ reg.values ∧ c.hostname = hostname) := by
  constructor
  · intro hnone
    unfold ClientRegistry.send_to_client
    have hf : reg.values.find? (fun c => c.hostname == hostname) = none := by
      rw [List.find?_eq_none]
      intro c hc
      simp only [beq_iff_eq]
      exact hnone c hc
    rw [hf]
  · intro hsome
    unfold ClientRegistry.send_to_client
    rcases hf : reg.values.find? (fun c => c.hostname == hostname) with _ | c
    · exfalso
      rw [List.find?_eq_none] at hf
      obtain ⟨c, hc, hch⟩ := hsome
      exact hf c hc (by simp [hch])
    · refine ⟨c, ?_, hf, List.mem_of_find?_eq_some hf, ?_⟩
      · simp only [hf]
      · have := List.find?_some hf
        simpa using this

/-- Witness for claim_C3_amended on a concrete registry, exercising both
the not-found error and the successful send. -/
theorem claim_C3_amended_witness :
    (ClientRegistry.send_to_client [("sid-9", ⟨"web", "sid-9", "linux"⟩)] "db"
      = Except.error ("Client not found: " ++ "db")) ∧
    ∃ c, ClientRegistry.send_to_client [("sid-9", ⟨"web", "sid-9", "linux"⟩)] "web"
        = Except.ok c ∧
      (ClientRegistry.values [("sid-9", ⟨"web", "sid-9", "linux"⟩)]).find?
          (fun d => d.hostname == "web") = some c ∧
      c ∈ ClientRegistry.values [("sid-9", ⟨"web", "sid-9", "linux"⟩)] ∧
      c.hostname = "web" :=
  ⟨(claim_C3_amended [("sid-9", ⟨"web", "sid-9", "linux"⟩)] "db").1 (by decide),
   (claim_C3_amended [("sid-9", ⟨"web", "sid-9", "linux"⟩)] "web").2 (by decide)⟩

-- The watch configuration filter (src/launcher/src/file_watcher.rs).

/-- A globset GlobSet is modeled as the list of its compiled matchers;
is_match asks whether any matcher accepts the string. -/
def GlobSet.isMatch (gs : List (String → Bool)) (s : String) : Bool :=
  gs.any (fun g => g s)

/-- Path::strip_prefix on component lists: succeeds with the remaining
components exactly when the root is a componentwise prefix. -/
def stripRoot : List String → List String → Option (List String)
  | [], p => some p
  | _ :: _, [] => none
  | r :: rs, q :: qs => if r = q then stripRoot rs qs else none

/-- WatchConfig (src/launcher/src/file_watcher.rs): canonical root path,
recursive flag, compiled include and exclude glob sets, original pattern
strings.  Paths are component lists; compiled globs are matchers on the
slash-joined root-relative string. -/
structure WatchConfig where
  path : List String
  recursive : Bool
  includeGlobs : List (String → Bool)
  excludeGlobs : List (String → Bool)
  include_patterns : List String
  exclude_patterns : List String

/-- WatchConfig::new with the globset compiler as a parameter: one matcher
is compiled per pattern string.  Pattern compilation errors abort new in
the source and never produce a config, so compiled configs always satisfy
this shape. -/
def WatchConfig.new (compile : String → (String → Bool)) (path : List String)
    (recursive : Bool) (include_patterns exclude_patterns : List String) :
    WatchConfig :=
  ⟨path, recursive, include_patterns.map compile, exclude_patterns.map compile,
    include_patterns, exclude_patterns⟩

/-- WatchConfig::matches: strip the root (not under the root means false);
when include patterns were given, require an include match on the
root-relative string; refuse any exclude match. -/
def WatchConfig.matches (c : WatchConfig) (p : List String) : Bool :=
  match stripRoot c.path p with
  | none => false
  | some rel =>
    if !c.include_patterns.isEmpty && !(GlobSet.isMatch c.includeGlobs
        (String.intercalate "/" rel)) then false
    else if GlobSet.isMatch c.excludeGlobs (String.intercalate "/" rel) then false
    else true

/-- Claim C8: a path matches a compiled watch configuration exactly when
the root is a prefix of the path and the root-relative form matches at
least one include pattern (or no include patterns were given) and matches
no exclude pattern. -/
theorem isMatch_map (compile : String → (String → Bool)) (pats : List String)
    (s : String) :
    GlobSet.isMatch (pats.map compile) s = pats.any (fun pat => compile pat s) := by
  induction pats with
  | nil => rfl
  | cons a l ih =>
    simp only [GlobSet.isMatch, List.map_cons, List.any_cons] at ih ⊢
    rw [ih]

theorem claim_C8 (compile : String → (String → Bool)) (path : List String)
    (recursive : Bool) (incPats excPats : List String) (p : List String) :
    (WatchConfig.new compile path recursive incPats excPats).matches p = true ↔
      ∃ rel, stripRoot path p = some rel ∧
        (incPats = [] ∨ ∃ pat ∈ incPats,
          compile pat (String.intercalate "/" rel) = true) ∧
        (∀ pat ∈ excPats, compile pat (String.intercalate "/" rel) = false) := by
  unfold WatchConfig.matches WatchConfig.new
  simp only
  split
  · rename_i heq
    simp [heq]
  · rename_i rel heq
    rw [isMatch_map, isMatch_map]
    constructor
    · intro hm
      split_ifs at hm with h1 h2
      refine ⟨rel, heq, ?_, ?_⟩
      · rcases hi : incPats.isEmpty with _ | _
        · rcases ha : incPats.any (fun pat =>
              compile pat (String.intercalate "/" rel)) with _ | _
          · exfalso
            apply h1
            rw [hi, ha]
            rfl
          · exact Or.inr (List.any_eq_true.mp ha)
        · exact Or.inl (List.isEmpty_iff.mp hi)
      · intro pat hmem
        rcases hc : compile pat (String.intercalate "/" rel) with _ | _
        · rfl
        · exfalso
          apply h2
          exact List.any_eq_true.mpr ⟨pat, hmem, hc⟩
    · rintro ⟨rel2, hrel2, hinc, hexc⟩
      have hr : rel2 = rel := by
        rw [heq] at hrel2
        exact (Option.some.inj hrel2).symm
      subst hr
      have hexcFalse : ¬ (excPats.any (fun pat =>
          compile pat (String.intercalate "/" rel2)) = true) := by
        intro habs
        obtain ⟨pat, hmem, hpat⟩ := List.any_eq_true.mp habs
        rw [hexc pat hmem] at hpat
        exact Bool.false_ne_true hpat
      have hcondFalse : ¬ ((!incPats.isEmpty && !(incPats.any (fun pat =>
          compile pat (String.intercalate "/" rel2)))) = true) := by
        intro habs
        rw [Bool.and_eq_true] at habs
        obtain ⟨hne, hnm⟩ := habs
        rcases hinc with hnil | ⟨pat, hmem, hpat⟩
        · rw [hnil] at hne
          simp at hne
        · have hany : incPats.any (fun pat =>
              compile pat (String.intercalate "/" rel2)) = true :=
            List.any_eq_true.mpr ⟨pat, hmem, hpat⟩
          rw [hany] at hnm
          simp at hnm
      rw [if_neg hcondFalse, if_neg hexcFalse]

/-- Witness instantiation of claim_C8 at a concrete configuration whose
compiler matches a pattern when it equals the relative string. -/
theorem claim_C8_witness :
    (WatchConfig.new (fun pat s => pat == s) ["w"] true ["x"] ["y"]).matches
        ["w", "x"] = true ↔
      ∃ rel, stripRoot ["w"] ["w", "x"] = some rel ∧
        ((["x"] : List String) = [] ∨ ∃ pat ∈ (["x"] : List String),
          (fun pat s => pat == s) pat (String.intercalate "/" rel) = true) ∧
        (∀ pat ∈ (["y"] : List String),
          (fun pat s => pat == s) pat (String.intercalate "/" rel) = false) :=
  claim_C8 (fun pat s => pat == s) ["w"] true ["x"] ["y"] ["w", "x"]

-- Rsync message type constants (src/protocol/src/message_types.rs).

/-- Control channel: initiate sync (0x0100). -/
def MSG_RSYNC_START : Nat := 256

/-- Control channel: sync result (0x0101). -/
def MSG_RSYNC_COMPLETE : Nat := 257

/-- Rsync data channel: file signature (0x0102). -/
def MSG_RSYNC_SIGNATURE : Nat := 258

/-- Rsync data channel: delta data (0x0103). -/
def MSG_RSYNC_DELTA : Nat := 259

-- The hub data-channel handler (src/launcher/src/ssh_server.rs,
-- handle_rsync_data) and the transfer table.

/-- The hub-wide transfer table rsync_file_storage: request_id to source
path and in-memory file bytes.  Request ids travel as the ASCII bytes of
the id string in the handshake frame payload, so the table is keyed by the
byte list here; String::from_utf8 is injective on the ids the hub issues. -/
abbrev RsyncFileStorage := List (List Nat × (String × List Nat))

/-- Per-data-channel rsync state (struct RsyncChannelState); its
FrameBuffer field lives at the byte layer and the handler below consumes
already-parsed frames. -/
structure RsyncChannelState where
  request_id : Option (List Nat)
  file_path : Option String
  file_data : Option (List Nat)
deriving DecidableEq, Repr

/-- RsyncChannelState::new. -/
def RsyncChannelState.initial : RsyncChannelState := ⟨none, none, none⟩

/-- One iteration of the frame loop in handle_rsync_data.  A first
signature frame is the handshake: its payload is the request id, looked up
in the transfer table (error when absent).  A second signature frame
carries the agent signature: the hub generates the delta (fast_rsync
generate_delta is the gen parameter), writes one delta frame to the
channel and marks the channel for removal.  Any other frame type is only
logged.  The transfer table is returned so theorems can observe that the
handler never modifies it. -/
def handleRsyncFrame (gen : List Nat → List Nat → Except String (List Nat))
    (storage : RsyncFileStorage) (st : RsyncChannelState) (frame : Frame) :
    Except String (RsyncFileStorage × RsyncChannelState × List Frame × Bool) :=
  if frame.message_type == MSG_RSYNC_SIGNATURE then
    match st.request_id with
    | none =>
      match List.lookup frame.payload storage with
      | some (fp, fd) =>
        Except.ok (storage, ⟨some frame.payload, some fp, some fd⟩, [], false)
      | none => Except.error ("No file found for request_id")
    | some _ =>
      match st.file_data with
      | none => Except.error ("No file data")
      | some fd =>
        match gen fd frame.payload with
        | Except.error _ => Except.error ("Failed to generate delta")
        | Except.ok delta =>
          match Frame.write ⟨MSG_RSYNC_DELTA, delta⟩ with
          | Except.error _ => Except.error ("Failed to write frame")
          | Except.ok _ => Except.ok (storage, st, [⟨MSG_RSYNC_DELTA, delta⟩], true)
  else
    Except.ok (storage, st, [], false)

/-- The whole frame loop of handle_rsync_data over the parsed frames of one
data append, accumulating the frames written to the channel and the
should_remove_channel flag.  After the loop the hub sends EOF on the
channel and, when the flag is set, removes the channel state from its
rsync_channels map; the transfer table is never touched. -/
def handleRsyncFrames (gen : List Nat → List Nat → Except String (List Nat))
    (storage : RsyncFileStorage) (st : RsyncChannelState) :
    List Frame → Except String (RsyncFileStorage × RsyncChannelState × List Frame × Bool)
  | [] => Except.ok (storage, st, [], false)
  | f :: rest =>
    match handleRsyncFrame gen storage st f with
    | Except.error e => Except.error e
    | Except.ok (storage1, st1, sent1, rm1) =>
      match handleRsyncFrames gen storage1 st1 rest with
      | Except.error e => Except.error e
      | Except.ok (storage2, st2, sent2, rm2) =>
        Except.ok (storage2, st2, sent1 ++ sent2, rm1 || rm2)

/-- The delta-receive loop of the agent (src/launcher/src/client_daemon.rs,
handle_rsync_start, lines 347-372): read frames, insisting on type delta,
concatenating payloads until a zero-length payload signals the end of the
delta stream.  When the frame stream ends without the empty terminator the
next read fails, which is what the agent observes when the hub closes the
channel: read_frame_from_channel bails on EOF. -/
def accumulateDelta : List Frame → Except String (List Nat)
  | [] => Except.error ("Channel EOF while reading frame")
  | f :: rest =>
    if f.message_type ≠ MSG_RSYNC_DELTA then Except.error ("Expected delta frame")
    else if f.payload.isEmpty then Except.ok []
    else
      match accumulateDelta rest with
      | Except.error e => Except.error e
      | Except.ok tail => Except.ok (f.payload ++ tail)

/-- Claim C1 is false on the code: for a transfer whose handshake and
signature the hub has received, the hub writes exactly one delta frame
holding the entire delta and then closes the channel; it never writes the
final empty-payload delta frame.  The agent side does accumulate until an
empty terminator, so on the very frames the hub sent it fails with the EOF
read error instead of completing. -/
theorem claim_C1_code_divergence :
    handleRsyncFrames (fun _ _ => Except.ok [1, 2, 3])
        [([114], ("src/a.txt", [9, 9]))] RsyncChannelState.initial
        [⟨MSG_RSYNC_SIGNATURE, [114]⟩, ⟨MSG_RSYNC_SIGNATURE, [5]⟩]
      = Except.ok ([([114], ("src/a.txt", [9, 9]))],
          ⟨some [114], some "src/a.txt", some [9, 9]⟩,
          [⟨MSG_RSYNC_DELTA, [1, 2, 3]⟩], true) ∧
    (⟨MSG_RSYNC_DELTA, [1, 2, 3]⟩ : Frame).payload ≠ [] ∧
    accumulateDelta [⟨MSG_RSYNC_DELTA, [1, 2, 3]⟩]
      = Except.error ("Channel EOF while reading frame") := by
  refine ⟨?_, ?_, ?_⟩
  · rfl
  · decide
  · rfl

/-- Claim C4 is false on the code at this input: after the hub has received
handshake and signature for request id byte 114, generated and sent the
delta and flagged the channel for removal, the transfer table it returns
still contains the entry for the request id. -/
theorem claim_C4_counterexample :
    handleRsyncFrames (fun _ _ => Except.ok [7]) [([114], ("a.txt", [9]))]
        RsyncChannelState.initial
        [⟨MSG_RSYNC_SIGNATURE, [114]⟩, ⟨MSG_RSYNC_SIGNATURE, []⟩]
      = Except.ok ([([114], ("a.txt", [9]))], ⟨some [114], some "a.txt", some [9]⟩,
          [⟨MSG_RSYNC_DELTA, [7]⟩], true) ∧
    List.lookup [114] [([114], ("a.txt", [9]))] = some ("a.txt", [9]) := by
  constructor
  · rfl
  · rfl

/-- Claim C4, amended: once the hub has computed and sent the delta for a
request and marked the data channel for closing, the per-channel rsync
state is removed from the channel map (should_remove_channel is true), but
the transfer table is returned unchanged: the request entry is never
removed from rsync_file_storage. -/
theorem claim_C4_amended (gen : List Nat → List Nat → Except String (List Nat))
    (storage : RsyncFileStorage) (rid : List Nat) (fp : String)
    (fd sig delta : List Nat)
    (hlook : List.lookup rid storage = some (fp, fd))
    (hgen : gen fd sig = Except.ok delta)
    (hsize : delta.length ≤ MAX_FRAME_SIZE - 2) :
    handleRsyncFrames gen storage RsyncChannelState.initial
        [⟨MSG_RSYNC_SIGNATURE, rid⟩, ⟨MSG_RSYNC_SIGNATURE, sig⟩]
      = Except.ok (storage, ⟨some rid, some fp, some fd⟩,
          [⟨MSG_RSYNC_DELTA, delta⟩], true) := by
  have hwrite := write_eq_encode ⟨MSG_RSYNC_DELTA, delta⟩ hsize
  simp [handleRsyncFrames, handleRsyncFrame, RsyncChannelState.initial,
    hlook, hgen, hwrite]

/-- Witness for claim_C4_amended at a concrete transfer. -/
theorem claim_C4_amended_witness :
    handleRsyncFrames (fun _ _ => Except.ok [3, 4]) [([65], ("b.txt", [1]))]
        RsyncChannelState.initial
        [⟨MSG_RSYNC_SIGNATURE, [65]⟩, ⟨MSG_RSYNC_SIGNATURE, [2]⟩]
      = Except.ok ([([65], ("b.txt", [1]))], ⟨some [65], some "b.txt", some [1]⟩,
          [⟨MSG_RSYNC_DELTA, [3, 4]⟩], true) :=
  claim_C4_amended (fun _ _ => Except.ok [3, 4]) [([65], ("b.txt", [1]))]
    [65] "b.txt" [1] [2] [3, 4] rfl rfl (by decide)

-- The agent rsync handler (src/launcher/src/client_daemon.rs,
-- handle_rsync_start) and its filesystem effects.

/-- The filesystem the agent handler touches: existing directories and
files with their contents.  Paths are component lists. -/
structure FS where
  dirs : List (List String)
  files : List (List String × List Nat)
deriving DecidableEq, Repr

/-- Contents of the file at a path, none when absent. -/
def FS.fileContent (fs : FS) (p : List String) : Option (List Nat) :=
  List.lookup p fs.files

/-- Path::exists on the destination path (the handler only probes file
destinations). -/
def FS.fileExists (fs : FS) (p : List String) : Bool :=
  (fs.fileContent p).isSome

/-- Directory existence. -/
def FS.dirExists (fs : FS) (p : List String) : Bool :=
  fs.dirs.contains p

/-- The nonempty component prefixes of a path: the directories
create_dir_all brings into existence. -/
def ancestors (p : List String) : List (List String) :=
  (List.range p.length).map (fun i => p.take (i + 1))

/-- tokio::fs::create_dir_all: creates the directory and every missing
ancestor; a no-op on the empty path. -/
def FS.createDirAll (fs : FS) (p : List String) : FS :=
  ⟨fs.dirs ++ ancestors p, fs.files⟩

/-- tokio::fs::write: create or truncate-and-replace the file. -/
def FS.writeFile (fs : FS) (p : List String) (content : List Nat) : FS :=
  ⟨fs.dirs, (p, content) :: fs.files.filter (fun kv => ¬ (kv.1 == p))⟩

/-- Path::parent on component lists: none for the empty path, otherwise
the path without its last component (the empty list stands for the empty
parent path of a single-component relative path, which never exists and on
which create_dir_all is a no-op, as in Rust). -/
def pathParent (p : List String) : Option (List String) :=
  match p with
  | [] => none
  | _ => some p.dropLast

/-- The destination: working_dir.join(relative_path) when a working
directory is set, else the relative path itself. -/
def localPath (workingDir : Option (List String)) (relative : List String) :
    List String :=
  match workingDir with
  | some wd => wd ++ relative
  | none => relative

/-- The create-parent-directory step at the top of handle_rsync_start
(lines 289-296): if the destination has a parent that does not exist,
create_dir_all it. -/
def ensureParentDirs (fs : FS) (lp : List String) : FS :=
  match pathParent lp with
  | some parent => if ¬ fs.dirExists parent then fs.createDirAll parent else fs
  | none => fs

/-- The RsyncComplete message the agent sends on the control channel. -/
structure RsyncCompleteMsg where
  request_id : String
  path : String
  success : Bool
  checksum : String
  bytes_transferred : Nat
  error : Option String
deriving DecidableEq, Repr

/-- handle_rsync_start on the agent, from the construction of the local
path to the RsyncComplete message.  In source order: build the local path,
create missing parent directories, open the data channel and send the
handshake and the signature (outbound frames appear in no claim and are
not recorded), accumulate the delta frames until the empty terminator,
apply the delta against the current file content (applyDelta stands for
fast_rsync apply via rsync_utils::apply_delta, receiving the base content
when the destination exists), hash the result (sha256hex stands for
rsync_utils::compute_checksum), write the file only when the hash equals
the expected checksum, and report RsyncComplete with the actual checksum,
the delta size as bytes_transferred, and error Checksum mismatch exactly
on a failed comparison. -/
def handleRsyncStart
    (applyDelta : Option (List Nat) → List Nat → Except String (List Nat))
    (sha256hex : List Nat → String)
    (workingDir : Option (List String)) (fs : FS)
    (request_id : String) (relative_path : List String)
    (expected_checksum : String) (deltaFrames : List Frame) :
    Except String (FS × RsyncCompleteMsg) :=
  match accumulateDelta deltaFrames with
  | Except.error e => Except.error e
  | Except.ok delta =>
    match applyDelta ((ensureParentDirs fs (localPath workingDir relative_path)).fileContent
        (localPath workingDir relative_path)) delta with
    | Except.error _ => Except.error ("Failed to apply delta")
    | Except.ok newContent =>
      if sha256hex newContent == expected_checksum then
        Except.ok ((ensureParentDirs fs (localPath workingDir relative_path)).writeFile
            (localPath workingDir relative_path) newContent,
          ⟨request_id, String.intercalate "/" relative_path, true,
            sha256hex newContent, delta.length, none⟩)
      else
        Except.ok (ensureParentDirs fs (localPath workingDir relative_path),
          ⟨request_id, String.intercalate "/" relative_path, false,
            sha256hex newContent, delta.length, some ("Checksum mismatch")⟩)

theorem ensureParentDirs_files (fs : FS) (lp : List String) :
    (ensureParentDirs fs lp).files = fs.files := by
  unfold ensureParentDirs
  rcases hp : pathParent lp with _ | parent
  · rfl
  · rcases hd : fs.dirExists parent with _ | _
    · simp [FS.createDirAll, hd]
    · simp [hd]

theorem ensureParentDirs_fileContent (fs : FS) (lp q : List String) :
    (ensureParentDirs fs lp).fileContent q = fs.fileContent q := by
  unfold FS.fileContent
  rw [ensureParentDirs_files]

theorem writeFile_content (fs : FS) (p : List String) (c : List Nat) :
    (fs.writeFile p c).fileContent p = some c := by
  unfold FS.writeFile FS.fileContent
  simp [List.lookup]

theorem mem_ancestors_self (p : List String) (h : p ≠ []) : p ∈ ancestors p := by
  unfold ancestors
  refine List.mem_map.mpr ⟨p.length - 1, ?_, ?_⟩
  · refine List.mem_range.mpr ?_
    have : 0 < p.length := List.length_pos.mpr h
    omega
  · have h1 : 0 < p.length := List.length_pos.mpr h
    have h2 : p.length - 1 + 1 = p.length := by omega
    rw [h2]
    exact List.take_length p

theorem createDirAll_dirExists (fs : FS) (p : List String) (h : p ≠ []) :
    (fs.createDirAll p).dirExists p = true := by
  unfold FS.createDirAll FS.dirExists
  exact List.elem_eq_true_of_mem (List.mem_append_right _ (mem_ancestors_self p h))

/-- Claim C5: after reconstructing the file from the delta, the agent
compares its SHA-256 to the checksum from RsyncStart.  On a mismatch it
leaves every file untouched and reports RsyncComplete with success false
and error Checksum mismatch; on a match it writes the reconstructed bytes
to the destination and reports success true with no error. -/
theorem claim_C5 (applyDelta : Option (List Nat) → List Nat → Except String (List Nat))
    (sha256hex : List Nat → String) (workingDir : Option (List String)) (fs : FS)
    (request_id : String) (relative_path : List String) (expected : String)
    (frames : List Frame) (delta newContent : List Nat)
    (hacc : accumulateDelta frames = Except.ok delta)
    (happly : applyDelta (fs.fileContent (localPath workingDir relative_path)) delta
      = Except.ok newContent) :
    (sha256hex newContent ≠ expected →
      handleRsyncStart applyDelta sha256hex workingDir fs request_id relative_path
          expected frames
        = Except.ok (ensureParentDirs fs (localPath workingDir relative_path),
            ⟨request_id, String.intercalate "/" relative_path, false,
              sha256hex newContent, delta.length, some ("Checksum mismatch")⟩) ∧
      (ensureParentDirs fs (localPath workingDir relative_path)).files = fs.files) ∧
    (sha256hex newContent = expected →
      ∃ fsOut, handleRsyncStart applyDelta sha256hex workingDir fs request_id
          relative_path expected frames
        = Except.ok (fsOut,
            ⟨request_id, String.intercalate "/" relative_path, true,
              sha256hex newContent, delta.length, none⟩) ∧
        fsOut.fileContent (localPath workingDir relative_path) = some newContent) := by
  have hbase : applyDelta ((ensureParentDirs fs (localPath workingDir
      relative_path)).fileContent (localPath workingDir relative_path)) delta
      = Except.ok newContent := by
    rw [ensureParentDirs_fileContent]
    exact happly
  constructor
  · intro hne
    constructor
    · unfold handleRsyncStart
      simp only [hacc, hbase]
      rw [if_neg (by simp [hne])]
    · exact ensureParentDirs_files fs _
  · intro heqc
    refine ⟨(ensureParentDirs fs (localPath workingDir relative_path)).writeFile
      (localPath workingDir relative_path) newContent, ?_, ?_⟩
    · unfold handleRsyncStart
      simp only [hacc, hbase]
      rw [if_pos (by simp [heqc])]
    · exact writeFile_content _ _ _

/-- Witness for claim_C5 at a concrete transfer exercising both the
mismatch branch and the match branch. -/
theorem claim_C5_witness :
    (handleRsyncStart (fun _ d => Except.ok d)
        (fun bs => if bs == [7] then "aa" else "bb") none ⟨[], []⟩
        "r1" ["out.txt"] "zz" [⟨MSG_RSYNC_DELTA, [7]⟩, ⟨MSG_RSYNC_DELTA, []⟩]
      = Except.ok (ensureParentDirs ⟨[], []⟩ (localPath none ["out.txt"]),
          ⟨"r1", String.intercalate "/" ["out.txt"], false, "aa", 1,
            some ("Checksum mismatch")⟩) ∧
      (ensureParentDirs ⟨[], []⟩ (localPath none ["out.txt"])).files
        = (⟨[], []⟩ : FS).files) ∧
    ∃ fsOut, handleRsyncStart (fun _ d => Except.ok d)
        (fun bs => if bs == [7] then "aa" else "bb") none ⟨[], []⟩
        "r2" ["out.txt"] "aa" [⟨MSG_RSYNC_DELTA, [7]⟩, ⟨MSG_RSYNC_DELTA, []⟩]
      = Except.ok (fsOut,
          ⟨"r2", String.intercalate "/" ["out.txt"], true, "aa", 1, none⟩) ∧
      fsOut.fileContent (localPath none ["out.txt"]) = some [7] :=
  ⟨(claim_C5 (fun _ d => Except.ok d) (fun bs => if bs == [7] then "aa" else "bb")
      none ⟨[], []⟩ "r1" ["out.txt"] "zz"
      [⟨MSG_RSYNC_DELTA, [7]⟩, ⟨MSG_RSYNC_DELTA, []⟩] [7] [7] rfl rfl).1
        (by decide),
   (claim_C5 (fun _ d => Except.ok d) (fun bs => if bs == [7] then "aa" else "bb")
      none ⟨[], []⟩ "r2" ["out.txt"] "aa"
      [⟨MSG_RSYNC_DELTA, [7]⟩, ⟨MSG_RSYNC_DELTA, []⟩] [7] [7] rfl rfl).2
        (by decide)⟩

/-- Claim C10: when the destination has a missing parent directory, the
agent creates all missing parent directories before applying the delta and
verifying the checksum, so even a transfer that ends in a checksum
mismatch, where the destination file is not written, leaves the newly
created parent directories on the filesystem. -/
theorem claim_C10 (applyDelta : Option (List Nat) → List Nat → Except String (List Nat))
    (sha256hex : List Nat → String) (workingDir : Option (List String)) (fs : FS)
    (request_id : String) (relative_path : List String) (expected : String)
    (frames : List Frame) (delta newContent : List Nat) (par : List String)
    (hacc : accumulateDelta frames = Except.ok delta)
    (happly : applyDelta (fs.fileContent (localPath workingDir relative_path)) delta
      = Except.ok newContent)
    (hpar : pathParent (localPath workingDir relative_path) = some par)
    (hne : par ≠ [])
    (hmiss : fs.dirExists par = false)
    (hmismatch : sha256hex newContent ≠ expected) :
    handleRsyncStart applyDelta sha256hex workingDir fs request_id relative_path
        expected frames
      = Except.ok (ensureParentDirs fs (localPath workingDir relative_path),
          ⟨request_id, String.intercalate "/" relative_path, false,
            sha256hex newContent, delta.length, some ("Checksum mismatch")⟩) ∧
    (ensureParentDirs fs (localPath workingDir relative_path)).dirExists par = true ∧
    (ensureParentDirs fs (localPath workingDir relative_path)).files = fs.files := by
  have hens : ensureParentDirs fs (localPath workingDir relative_path)
      = fs.createDirAll par := by
    unfold ensureParentDirs
    simp only [hpar]
    rw [if_pos (by simp [hmiss])]
  refine ⟨?_, ?_, ensureParentDirs_files fs _⟩
  · have hbase : applyDelta ((ensureParentDirs fs (localPath workingDir
        relative_path)).fileContent (localPath workingDir relative_path)) delta
        = Except.ok newContent := by
      rw [ensureParentDirs_fileContent]
      exact happly
    unfold handleRsyncStart
    simp only [hacc, hbase]
    rw [if_neg (by simp [hmismatch])]
  · rw [hens]
    exact createDirAll_dirExists fs par hne

/-- Witness for claim_C10: destination d/f.txt with no directory d on the
agent, a transfer that fails its checksum, and directory d existing in the
resulting filesystem while no file was written. -/
theorem claim_C10_witness :
    handleRsyncStart (fun _ d => Except.ok d)
        (fun bs => if bs == [7] then "aa" else "bb") none ⟨[], []⟩
        "r1" ["d", "f.txt"] "zz" [⟨MSG_RSYNC_DELTA, [7]⟩, ⟨MSG_RSYNC_DELTA, []⟩]
      = Except.ok (ensureParentDirs ⟨[], []⟩ (localPath none ["d", "f.txt"]),
          ⟨"r1", String.intercalate "/" ["d", "f.txt"], false, "aa", 1,
            some ("Checksum mismatch")⟩) ∧
    (ensureParentDirs ⟨[], []⟩ (localPath none ["d", "f.txt"])).dirExists ["d"]
      = true ∧
    (ensureParentDirs ⟨[], []⟩ (localPath none ["d", "f.txt"])).files
      = (⟨[], []⟩ : FS).files :=
  claim_C10 (fun _ d => Except.ok d) (fun bs => if bs == [7] then "aa" else "bb")
    none ⟨[], []⟩ "r1" ["d", "f.txt"] "zz"
    [⟨MSG_RSYNC_DELTA, [7]⟩, ⟨MSG_RSYNC_DELTA, []⟩] [7] [7] ["d"]
    rfl rfl rfl (by decide) rfl (by decide)

end HalfRemembered
